import Mathlib

/-!
# Task manager persistence layer — shallow embedding

This file embeds the task persistence / update-normalization layer of the
repository (`src/lib/mongodb.ts`, MongoClient variant, together with the API
route in `src/app/api/tasks/route.ts`) and proves the specification's claims
about it.

Modelling conventions:
* MongoDB ObjectIds are hex strings; `isValidObjectId` captures the 24-hex
  check performed by the `ObjectId` constructor (`toObjectId` throws
  "Invalid task id." otherwise).
* At the TypeScript runtime, stored documents may be legacy/partial, so the
  fields that the code defends against with `??` / `typeof` checks /
  `Array.includes` are modelled as `Option` types: a `none` is a JS
  `undefined`.  `status` and `priority` are raw strings at runtime (the
  TS literal-union types are erased), so they are modelled as `String`.
* Timestamps (`Date` values) are modelled as integers (epoch milliseconds).
* Thrown `Error`s are modelled with the `TaskError` inductive, one
  constructor per distinct `throw` site message; fallible operations return
  `Except TaskError _`.
* The backing collection is a list of documents; `insertOne` appends,
  `updateOne` replaces the matching document, `deleteOne` removes the first
  match, `find().sort({updatedAt:-1}).limit(100)` sorts descending by
  `updatedAt` and takes 100.
-/

namespace TaskManager

/-- A persisted document, as the code can actually find it in the store
(`DbTaskRecord` in the source, with runtime-optional fields as `Option`). -/
structure DbTaskRecord where
  _id : String
  title : String
  description : Option String
  status : Option String
  completed : Option Bool
  priority : Option String
  createdAt : Int
  updatedAt : Int
deriving DecidableEq, Repr

/-- The normalized task shape returned to callers (`TaskRecord` in the source). -/
structure TaskRecord where
  id : String
  title : String
  description : String
  status : String
  completed : Bool
  priority : String
  createdAt : Int
  updatedAt : Int
deriving DecidableEq, Repr

/-- One constructor per `throw new Error(...)` message in the source. -/
inductive TaskError where
  /-- "Invalid task id." (thrown by `toObjectId`) -/
  | invalidTaskId
  /-- "Task not found." (thrown by `updateTask` / `deleteTask`) -/
  | taskNotFound
  /-- "A task title is required." (thrown by `insertTask`) -/
  | titleRequired
deriving DecidableEq, Repr

instance {ε α : Type} [DecidableEq ε] [DecidableEq α] : DecidableEq (Except ε α) :=
  fun a b =>
    match a, b with
    | .error e, .error f => decidable_of_iff (e = f) (by simp)
    | .error _, .ok _ => isFalse fun h => Except.noConfusion h
    | .ok _, .error _ => isFalse fun h => Except.noConfusion h
    | .ok x, .ok y => decidable_of_iff (x = y) (by simp)

/-- JS `String.prototype.trim` whitespace (the characters that matter here:
space, tab, line feed, carriage return, vertical tab, form feed). -/
def isJsWhitespace (c : Char) : Bool :=
  c == ' ' || c == '\t' || c == '\n' || c == '\r' || c == '\x0b' || c == '\x0c'

/-- JS `s.trim()`: strip leading and trailing whitespace. -/
def trimString (s : String) : String :=
  ⟨((s.data.dropWhile isJsWhitespace).reverse.dropWhile isJsWhitespace).reverse⟩

/-- `new ObjectId(id)` succeeds exactly on 24-character hex strings
(modulo the 12-byte binary form, which no JSON-supplied id takes). -/
def isValidObjectId (s : String) : Bool :=
  s.data.length == 24 && s.data.all fun c =>
    c.isDigit || (97 ≤ c.toNat && c.toNat ≤ 102) || (65 ≤ c.toNat && c.toNat ≤ 70)

/-- `alignStatusAndCompletion` from the source:
```
if (completed || status === "done") return { status: "done", completed: true };
if (status === "doing") return { status: "doing", completed: false };
return { status: "todo", completed: false };
```
`completed` is truthy iff it is `true` (`undefined` and `false` are falsy). -/
def alignStatusAndCompletion (status : Option String) (completed : Option Bool) :
    String × Bool :=
  if completed.getD false = true ∨ status = some "done" then ("done", true)
  else if status = some "doing" then ("doing", false)
  else ("todo", false)

/-- `["High", "Low", "Medium"].includes(p)` for a string `p`. -/
def priorityIncludes (p : String) : Prop :=
  p = "High" ∨ p = "Low" ∨ p = "Medium"

instance (p : String) : Decidable (priorityIncludes p) := by
  unfold priorityIncludes
  infer_instance

/-- `normalizeTask` from the source: reconcile status/completion, coerce an
unknown priority to "Medium" (`includes(undefined)` is `false`, so an absent
priority also becomes "Medium"), default a missing description to "". -/
def normalizeTask (doc : DbTaskRecord) : TaskRecord :=
  let sc := alignStatusAndCompletion doc.status doc.completed
  { id := doc._id
    title := doc.title
    description := doc.description.getD ""
    status := sc.1
    completed := sc.2
    priority :=
      match doc.priority with
      | some p => if priorityIncludes p then p else "Medium"
      | none => "Medium"
    createdAt := doc.createdAt
    updatedAt := doc.updatedAt }

/-- Comparator for `.sort({ updatedAt: -1 })`: descending by `updatedAt`. -/
def updatedAtDesc (a b : DbTaskRecord) : Prop :=
  b.updatedAt ≤ a.updatedAt

instance : DecidableRel updatedAtDesc := fun a b =>
  (inferInstance : Decidable (b.updatedAt ≤ a.updatedAt))

instance : IsTotal DbTaskRecord updatedAtDesc :=
  ⟨fun a b => (le_total b.updatedAt a.updatedAt).elim Or.inl Or.inr⟩

instance : IsTrans DbTaskRecord updatedAtDesc :=
  ⟨fun _ _ _ hab hbc => le_trans hbc hab⟩

/-- `fetchTasks`: `find({}).sort({updatedAt:-1}).limit(100).toArray()`
mapped through `normalizeTask`. -/
def fetchTasks (store : List DbTaskRecord) : List TaskRecord :=
  ((List.insertionSort updatedAtDesc store).take 100).map normalizeTask

/-- Creation input (`input` parameter of `insertTask`); the code guards
`input.title?.trim()`, so `title` is runtime-optional despite its TS type. -/
structure InsertInput where
  title : Option String
  description : Option String
  status : Option String
  completed : Option Bool
  priority : Option String
deriving DecidableEq, Repr

/-- `insertTask` from the source.  `now` is `new Date()` and `newId` the
ObjectId the driver assigns.  Returns the normalized task and the new store.
```
const title = input.title?.trim();
if (!title) throw new Error("A task title is required.");
const description = input.description?.trim() ?? "";
const { status, completed } = alignStatusAndCompletion(input.status, input.completed);
const priority = ["High","Low","Medium"].includes(input.priority ?? "") ? input.priority : "Medium";
```
-/
def insertTask (input : InsertInput) (now : Int) (newId : String)
    (store : List DbTaskRecord) : Except TaskError (TaskRecord × List DbTaskRecord) :=
  let title := (input.title.map trimString).getD ""
  if title = "" then .error .titleRequired
  else
    let description := (input.description.map trimString).getD ""
    let sc := alignStatusAndCompletion input.status input.completed
    let priority :=
      if priorityIncludes (input.priority.getD "") then input.priority.getD "" else "Medium"
    let doc : DbTaskRecord :=
      { _id := newId
        title := title
        description := some description
        status := some sc.1
        completed := some sc.2
        priority := some priority
        createdAt := now
        updatedAt := now }
    .ok (normalizeTask doc, store ++ [doc])

/-- Partial-update input (`updates` parameter of `updateTask`). -/
structure UpdateInput where
  title : Option String
  description : Option String
  status : Option String
  completed : Option Bool
  priority : Option String
deriving DecidableEq, Repr

/-- The `$set` document that `updateTask` writes, from the source:
```
const _id = toObjectId(id);                          // throws "Invalid task id."
const existing = await collection.findOne({ _id });
if (!existing) throw new Error("Task not found.");
const title = typeof updates.title === "string" ? updates.title.trim() : existing.title;
const description = typeof updates.description === "string" ? updates.description.trim()
                  : existing.description ?? "";
const priority = updates.priority && ["High","Low","Medium"].includes(updates.priority)
               ? updates.priority : existing.priority ?? "Medium";
const { status, completed } = alignStatusAndCompletion(
  updates.status ?? existing.status,
  typeof updates.completed === "boolean" ? updates.completed : existing.completed);
// $set { title, description, status, completed, priority, updatedAt: new Date() }
```
(`updates.priority && …` means an empty-string priority is falsy and ignored.) -/
def applyUpdate (existing : DbTaskRecord) (updates : UpdateInput) (now : Int) :
    DbTaskRecord :=
  let title :=
    match updates.title with
    | some t => trimString t
    | none => existing.title
  let description :=
    match updates.description with
    | some d => trimString d
    | none => existing.description.getD ""
  let priority :=
    match updates.priority with
    | some p => if p ≠ "" ∧ priorityIncludes p then p else existing.priority.getD "Medium"
    | none => existing.priority.getD "Medium"
  let sc := alignStatusAndCompletion
    (updates.status <|> existing.status)
    (updates.completed <|> existing.completed)
  { existing with
    title := title
    description := some description
    status := some sc.1
    completed := some sc.2
    priority := some priority
    updatedAt := now }

/-- `updateTask` proper: id validation, `findOne`, then `updateOne` with the
`$set` document computed by `applyUpdate`. -/
def updateTask (id : String) (updates : UpdateInput) (now : Int)
    (store : List DbTaskRecord) : Except TaskError (List DbTaskRecord) :=
  if !isValidObjectId id then .error .invalidTaskId
  else
    match store.find? (fun d => d._id == id) with
    | none => .error .taskNotFound
    | some existing =>
      .ok (store.map fun d => if d._id == id then applyUpdate existing updates now else d)

/-- `deleteTask` from the source: `toObjectId` (throws "Invalid task id."),
`deleteOne` (removes the first match), then
`if (result.deletedCount === 0) throw new Error("Task not found.")`. -/
def deleteTask (id : String) (store : List DbTaskRecord) :
    Except TaskError (List DbTaskRecord) :=
  if !isValidObjectId id then .error .invalidTaskId
  else if store.any (fun d => d._id == id) then
    .ok (store.eraseP (fun d => d._id == id))
  else .error .taskNotFound

/-! ## Shared lemmas -/

theorem align_cases (s : Option String) (c : Option Bool) :
    alignStatusAndCompletion s c = ("done", true) ∨
    alignStatusAndCompletion s c = ("doing", false) ∨
    alignStatusAndCompletion s c = ("todo", false) := by
  unfold alignStatusAndCompletion
  split
  · exact Or.inl rfl
  split
  · exact Or.inr (Or.inl rfl)
  · exact Or.inr (Or.inr rfl)

theorem updateTask_ok (id : String) (updates : UpdateInput) (now : Int)
    (store : List DbTaskRecord) (existing : DbTaskRecord)
    (hid : isValidObjectId id = true)
    (hfind : store.find? (fun d => d._id == id) = some existing) :
    updateTask id updates now store =
      .ok (store.map fun d => if d._id == id then applyUpdate existing updates now else d) := by
  simp [updateTask, hid, hfind]

theorem mem_replaced (store : List DbTaskRecord) (id : String) (nd : DbTaskRecord)
    (d : DbTaskRecord)
    (hd : d ∈ store.map fun x => if x._id == id then nd else x)
    (hdid : d._id = id) : d = nd := by
  rcases List.mem_map.mp hd with ⟨a, _, hfa⟩
  by_cases h : (a._id == id) = true
  · rw [if_pos h] at hfa
    exact hfa.symm
  · rw [if_neg h] at hfa
    subst hfa
    simp [hdid] at h

/-- Concrete 24-hex identifier used by the evaluation witnesses. -/
def wid : String := "0123456789abcdef01234567"

/-- A concrete stored document in the `todo` state, used by witnesses. -/
def todoDoc : DbTaskRecord :=
  { _id := wid, title := "Plan", description := some "", status := some "todo",
    completed := some false, priority := some "High", createdAt := 5, updatedAt := 5 }

/-! ## Claims -/

/-- **C1.** The reconciliation function `alignStatusAndCompletion` is total over
raw status/completed inputs (indeed over all raw strings, not only the three
literals) and always returns one of the three canonical pairs
(todo, false), (doing, false), (done, true); in particular it never returns
`completed = true` with a status other than `"done"`, nor `completed = false`
with status `"done"`. -/
theorem align_total_three_pairs (s : Option String) (c : Option Bool) :
    (alignStatusAndCompletion s c = ("todo", false) ∨
     alignStatusAndCompletion s c = ("doing", false) ∨
     alignStatusAndCompletion s c = ("done", true)) ∧
    ((alignStatusAndCompletion s c).2 = true ↔ (alignStatusAndCompletion s c).1 = "done") := by
  rcases align_cases s c with h | h | h <;> rw [h] <;> decide

/-- **C9.** The reconciliation function is idempotent: applying
`alignStatusAndCompletion` to its own output (supplied as the raw fields)
yields that same output. -/
theorem align_idempotent (s : Option String) (c : Option Bool) :
    alignStatusAndCompletion (some (alignStatusAndCompletion s c).1)
      (some (alignStatusAndCompletion s c).2) = alignStatusAndCompletion s c := by
  rcases align_cases s c with h | h | h <;> rw [h] <;> decide

/-- **C2.** `updateTask` reapplies the reconciliation rule to the merged
existing ⊕ partial view: updating a stored `(status = "todo",
completed = false)` task with a partial update supplying only
`completed = true` stores the task with `status = "done"` and
`completed = true`. -/
theorem updateTask_completed_true_promotes_to_done
    (id : String) (now : Int) (store : List DbTaskRecord) (existing : DbTaskRecord)
    (hid : isValidObjectId id = true)
    (hfind : store.find? (fun d => d._id == id) = some existing)
    (hst : existing.status = some "todo")
    (hco : existing.completed = some false) :
    ∃ store', updateTask id ⟨none, none, none, some true, none⟩ now store = .ok store' ∧
      ∀ d ∈ store', d._id = id → d.status = some "done" ∧ d.completed = some true := by
  refine ⟨_, updateTask_ok id _ now store existing hid hfind, ?_⟩
  intro d hd hdid
  have hrepl := mem_replaced store id _ d hd hdid
  subst hrepl
  simp [applyUpdate, hst, hco, alignStatusAndCompletion]

/-- Evaluation witness for C2: a concrete one-document store. -/
theorem updateTask_completed_true_promotes_to_done_witness :
    isValidObjectId wid = true ∧
    ([todoDoc].find? (fun d => d._id == wid) = some todoDoc) ∧
    todoDoc.status = some "todo" ∧ todoDoc.completed = some false ∧
    (∃ store', updateTask wid ⟨none, none, none, some true, none⟩ 6 [todoDoc] = .ok store' ∧
      ∀ d ∈ store', d._id = wid → d.status = some "done" ∧ d.completed = some true) :=
  ⟨by decide, by decide, by decide, by decide,
    updateTask_completed_true_promotes_to_done wid 6 [todoDoc] todoDoc
      (by decide) (by decide) (by decide) (by decide)⟩

theorem align_done_merge (us : Option String) (uc : Option Bool) :
    ((alignStatusAndCompletion (us <|> some "done") (uc <|> some true)).1 = "done" ∧
     (alignStatusAndCompletion (us <|> some "done") (uc <|> some true)).2 = true) ↔
      ¬∃ s, us = some s ∧ s ≠ "done" ∧ uc = some false := by
  cases us with
  | none =>
    cases uc with
    | none => simp [alignStatusAndCompletion]
    | some b => cases b <;> simp [alignStatusAndCompletion]
  | some s =>
    cases uc with
    | none => simp [alignStatusAndCompletion]
    | some b =>
      cases b
      · by_cases hs : s = "done"
        · subst hs
          simp [alignStatusAndCompletion]
        · simp only [Option.some_orElse, Option.getD_some, alignStatusAndCompletion]
          simp [hs]
          by_cases hs2 : s = "doing" <;> simp [hs2]
      · simp [alignStatusAndCompletion]

/-- A concrete stored document in the `done` state, used by witnesses. -/
def doneDoc : DbTaskRecord :=
  { _id := wid, title := "Ship", description := some "", status := some "done",
    completed := some true, priority := some "Low", createdAt := 3, updatedAt := 4 }

/-- **C10.** A stored task in the canonical done state stays done under any
partial update that does not supply both a non-"done" status and
`completed = false` together; it leaves the done state exactly when the
update supplies both. -/
theorem updateTask_done_is_sticky
    (id : String) (updates : UpdateInput) (now : Int) (store : List DbTaskRecord)
    (existing : DbTaskRecord)
    (hid : isValidObjectId id = true)
    (hfind : store.find? (fun d => d._id == id) = some existing)
    (hst : existing.status = some "done")
    (hco : existing.completed = some true) :
    ∃ store', updateTask id updates now store = .ok store' ∧
      ∀ d ∈ store', d._id = id →
        ((d.status = some "done" ∧ d.completed = some true) ↔
          ¬∃ s, updates.status = some s ∧ s ≠ "done" ∧ updates.completed = some false) := by
  refine ⟨_, updateTask_ok id updates now store existing hid hfind, ?_⟩
  intro d hd hdid
  have hrepl := mem_replaced store id _ d hd hdid
  subst hrepl
  have hmerge := align_done_merge updates.status updates.completed
  simp only [applyUpdate, hst, hco]
  simpa using hmerge

/-- Evaluation witness for C10: supplying only `status = "todo"` to a done
task keeps it done. -/
theorem updateTask_done_is_sticky_witness :
    isValidObjectId wid = true ∧
    ([doneDoc].find? (fun d => d._id == wid) = some doneDoc) ∧
    doneDoc.status = some "done" ∧ doneDoc.completed = some true ∧
    (∃ store', updateTask wid ⟨none, none, some "todo", none, none⟩ 9 [doneDoc] = .ok store' ∧
      ∀ d ∈ store', d._id = wid →
        ((d.status = some "done" ∧ d.completed = some true) ↔
          ¬∃ s, (some "todo" : Option String) = some s ∧ s ≠ "done" ∧
            (none : Option Bool) = some false)) :=
  ⟨by decide, by decide, by decide, by decide,
    updateTask_done_is_sticky wid ⟨none, none, some "todo", none, none⟩ 9 [doneDoc] doneDoc
      (by decide) (by decide) (by decide) (by decide)⟩

/-- **C7.** An update supplying only `priority` is a frame update: for a
well-formed existing task (canonical status/completed pair, description
present) the stored document keeps its title, description, status, completed
and createdAt, and gets `updatedAt = now`. -/
theorem updateTask_priority_only_frame
    (id : String) (pr : String) (now : Int) (store : List DbTaskRecord)
    (existing : DbTaskRecord) (st : String) (co : Bool) (ds : String)
    (hid : isValidObjectId id = true)
    (hfind : store.find? (fun d => d._id == id) = some existing)
    (hdesc : existing.description = some ds)
    (hst : existing.status = some st)
    (hco : existing.completed = some co)
    (hcanon : alignStatusAndCompletion existing.status existing.completed = (st, co)) :
    ∃ store', updateTask id ⟨none, none, none, none, some pr⟩ now store = .ok store' ∧
      ∀ d ∈ store', d._id = id →
        d.title = existing.title ∧ d.description = existing.description ∧
        d.status = existing.status ∧ d.completed = existing.completed ∧
        d.createdAt = existing.createdAt ∧ d.updatedAt = now := by
  refine ⟨_, updateTask_ok id _ now store existing hid hfind, ?_⟩
  intro d hd hdid
  have hrepl := mem_replaced store id _ d hd hdid
  subst hrepl
  simp [applyUpdate, hdesc, hst, hco, hst ▸ hco ▸ hcanon]

/-- Evaluation witness for C7: updating only the priority of a concrete
well-formed task. -/
theorem updateTask_priority_only_frame_witness :
    isValidObjectId wid = true ∧
    ([todoDoc].find? (fun d => d._id == wid) = some todoDoc) ∧
    todoDoc.description = some "" ∧ todoDoc.status = some "todo" ∧
    todoDoc.completed = some false ∧
    alignStatusAndCompletion todoDoc.status todoDoc.completed = ("todo", false) ∧
    (∃ store', updateTask wid ⟨none, none, none, none, some "Low"⟩ 8 [todoDoc] = .ok store' ∧
      ∀ d ∈ store', d._id = wid →
        d.title = todoDoc.title ∧ d.description = todoDoc.description ∧
        d.status = todoDoc.status ∧ d.completed = todoDoc.completed ∧
        d.createdAt = todoDoc.createdAt ∧ d.updatedAt = 8) :=
  ⟨by decide, by decide, by decide, by decide, by decide, by decide,
    updateTask_priority_only_frame wid "Low" 8 [todoDoc] todoDoc "todo" false ""
      (by decide) (by decide) (by decide) (by decide) (by decide) (by decide)⟩

/-- **C3.** `insertTask` fails with the title-validation error exactly when the
supplied title is missing or trims to the empty string (so a whitespace-only
title is rejected); on success both the returned task and the single appended
document carry the trimmed title. -/
theorem insertTask_title_spec (input : InsertInput) (now : Int) (newId : String)
    (store : List DbTaskRecord) :
    (insertTask input now newId store = .error .titleRequired ↔
      (input.title.map trimString).getD "" = "") ∧
    (∀ task store', insertTask input now newId store = .ok (task, store') →
      task.title = trimString (input.title.getD "") ∧
      ∃ doc, store' = store ++ [doc] ∧ doc.title = trimString (input.title.getD "")) := by
  constructor
  · by_cases h : (input.title.map trimString).getD "" = ""
    · simp [insertTask, h]
    · simp [insertTask, h]
  · intro task store' hok
    by_cases h : (input.title.map trimString).getD "" = ""
    · simp [insertTask, h] at hok
    · have htitle : (input.title.map trimString).getD "" = trimString (input.title.getD "") := by
        cases input.title <;> simp [trimString]
      simp only [insertTask] at hok
      rw [if_neg h] at hok
      injection hok with hpair
      obtain ⟨htask, hstore⟩ := Prod.mk.injEq .. ▸ hpair
      refine ⟨?_, ?_⟩
      · rw [← htask]
        simp [normalizeTask, htitle]
      · exact ⟨_, hstore.symm, htitle⟩

/-- The document created by the concrete C3 witness insertion. -/
def planDoc : DbTaskRecord :=
  { _id := wid, title := "Plan launch", description := some "", status := some "todo",
    completed := some false, priority := some "Medium", createdAt := 7, updatedAt := 7 }

/-- The task returned by the concrete C3 witness insertion. -/
def planTask : TaskRecord :=
  { id := wid, title := "Plan launch", description := "", status := "todo",
    completed := false, priority := "Medium", createdAt := 7, updatedAt := 7 }

/-- Evaluation witness for C3: whitespace-only title rejected; a padded title
is stored trimmed. -/
theorem insertTask_title_spec_witness :
    (insertTask ⟨some "  ", none, none, none, none⟩ 7 wid [] = .error .titleRequired) ∧
    (insertTask ⟨some "  Plan launch  ", none, none, none, none⟩ 7 wid [] =
      .ok (planTask, [planDoc])) ∧
    (planTask.title = trimString ((some "  Plan launch  " : Option String).getD "") ∧
      ∃ doc, [planDoc] = ([] : List DbTaskRecord) ++ [doc] ∧
        doc.title = trimString ((some "  Plan launch  " : Option String).getD "")) ∧
    planTask.title = "Plan launch" :=
  ⟨(insertTask_title_spec ⟨some "  ", none, none, none, none⟩ 7 wid []).1.mpr (by decide),
   by decide,
   (insertTask_title_spec ⟨some "  Plan launch  ", none, none, none, none⟩ 7 wid []).2
     planTask [planDoc] (by decide),
   by decide⟩

/-- **C6.** `fetchTasks` returns at most 100 tasks, ordered by `updatedAt`
descending, and every returned task — whatever the stored documents look
like — has a status among the three literals, a `completed` flag that agrees
with `status = "done"`, and a priority among {High, Medium, Low}. -/
theorem fetchTasks_spec (store : List DbTaskRecord) :
    (fetchTasks store).length ≤ 100 ∧
    List.Pairwise (fun a b : TaskRecord => b.updatedAt ≤ a.updatedAt) (fetchTasks store) ∧
    ∀ t ∈ fetchTasks store,
      (t.status = "todo" ∨ t.status = "doing" ∨ t.status = "done") ∧
      (t.completed = true ↔ t.status = "done") ∧
      (t.priority = "High" ∨ t.priority = "Medium" ∨ t.priority = "Low") := by
  refine ⟨?_, ?_, ?_⟩
  · simp only [fetchTasks, List.length_map, List.length_take]
    exact min_le_left _ _
  · simp only [fetchTasks, List.pairwise_map]
    refine List.Pairwise.sublist (List.take_sublist _ _) ?_
    exact (List.sorted_insertionSort updatedAtDesc store).imp fun h => h
  · intro t ht
    simp only [fetchTasks] at ht
    rcases List.mem_map.mp ht with ⟨d, _, rfl⟩
    refine ⟨?_, ?_, ?_⟩
    · rcases align_cases d.status d.completed with h | h | h <;>
        simp [normalizeTask, h]
    · rcases align_cases d.status d.completed with h | h | h <;>
        simp [normalizeTask, h]
    · rcases hp : d.priority with _ | p
      · simp [normalizeTask, hp]
      · by_cases hinc : priorityIncludes p
        · rcases hinc with h | h | h <;> subst h <;> simp [normalizeTask, hp, priorityIncludes]
        · simp [normalizeTask, hp, hinc]

/-- The normalized view of `todoDoc`, used by the C6 witness. -/
def todoTask : TaskRecord :=
  { id := wid, title := "Plan", description := "", status := "todo",
    completed := false, priority := "High", createdAt := 5, updatedAt := 5 }

/-- Evaluation witness for C6: a concrete member of a concrete listing. -/
theorem fetchTasks_spec_witness :
    todoTask ∈ fetchTasks [doneDoc, todoDoc] ∧
    ((todoTask.status = "todo" ∨ todoTask.status = "doing" ∨ todoTask.status = "done") ∧
      (todoTask.completed = true ↔ todoTask.status = "done") ∧
      (todoTask.priority = "High" ∨ todoTask.priority = "Medium" ∨ todoTask.priority = "Low")) :=
  ⟨by decide, (fetchTasks_spec [doneDoc, todoDoc]).2.2 todoTask (by decide)⟩

theorem eraseP_unique_no_match {l : List DbTaskRecord} {id : String}
    (hnodup : (l.map fun d => d._id).Nodup) :
    ∀ d ∈ l.eraseP (fun d => d._id == id), d._id ≠ id := by
  induction l with
  | nil => simp
  | cons x xs ih =>
    rw [List.map_cons, List.nodup_cons] at hnodup
    obtain ⟨hx, hxs⟩ := hnodup
    by_cases hpx : (x._id == id) = true
    · have hstep : List.eraseP (fun d => d._id == id) (x :: xs) = xs := by
        simp [List.eraseP_cons, hpx]
      rw [hstep]
      intro d hd hdid
      have hxid : x._id = id := by simpa using hpx
      have hmem : d._id ∈ xs.map fun d => d._id := List.mem_map_of_mem _ hd
      rw [hdid, ← hxid] at hmem
      exact hx hmem
    · have hpx' : (x._id == id) = false := by simpa using hpx
      have hstep : List.eraseP (fun d => d._id == id) (x :: xs) =
          x :: List.eraseP (fun d => d._id == id) xs := by
        simp [List.eraseP_cons, hpx']
      rw [hstep]
      intro d hd hdid
      rcases List.mem_cons.mp hd with rfl | hd'
      · exact absurd hdid (by simpa using hpx)
      · exact ih hxs d hd' hdid

/-- **C5.** `deleteTask` fails on a malformed id, fails with the not-found
error when no stored document has the id, and on an existing id (unique, as
ObjectIds are) removes the document so that a subsequent `fetchTasks` no
longer returns a task with that id. -/
theorem deleteTask_spec (id : String) (store : List DbTaskRecord) :
    (isValidObjectId id = false → deleteTask id store = .error .invalidTaskId) ∧
    (isValidObjectId id = true → (∀ d ∈ store, d._id ≠ id) →
      deleteTask id store = .error .taskNotFound) ∧
    (∀ existing ∈ store, existing._id = id → isValidObjectId id = true →
      (store.map fun d => d._id).Nodup →
      ∃ store', deleteTask id store = .ok store' ∧
        ∀ t ∈ fetchTasks store', t.id ≠ id) := by
  refine ⟨?_, ?_, ?_⟩
  · intro h
    simp [deleteTask, h]
  · intro hv hnone
    have hany : store.any (fun d => d._id == id) = false := by
      rw [← Bool.not_eq_true, List.any_eq_true]
      rintro ⟨x, hx, hbeq⟩
      exact hnone x hx (by simpa using hbeq)
    simp [deleteTask, hv, hany]
  · intro ex hmem hid hv hnodup
    have hany : store.any (fun d => d._id == id) = true :=
      List.any_eq_true.mpr ⟨ex, hmem, by simp [hid]⟩
    refine ⟨store.eraseP (fun d => d._id == id), ?_, ?_⟩
    · simp [deleteTask, hv, hany]
    intro t ht
    simp only [fetchTasks] at ht
    rcases List.mem_map.mp ht with ⟨d, hd, rfl⟩
    have hd1 := List.mem_of_mem_take hd
    have hd2 := (List.perm_insertionSort updatedAtDesc _).mem_iff.mp hd1
    have := eraseP_unique_no_match hnodup d hd2
    simpa [normalizeTask] using this

/-- Evaluation witness for C5: all three branches at concrete inputs. -/
theorem deleteTask_spec_witness :
    deleteTask "nope" [] = .error .invalidTaskId ∧
    deleteTask wid [] = .error .taskNotFound ∧
    (∃ store', deleteTask wid [todoDoc] = .ok store' ∧
      ∀ t ∈ fetchTasks store', t.id ≠ wid) :=
  ⟨(deleteTask_spec "nope" []).1 (by decide),
   (deleteTask_spec wid []).2.1 (by decide) (by simp),
   (deleteTask_spec wid [todoDoc]).2.2 todoDoc (by simp) (by decide) (by decide) (by decide)⟩

/-- The document stored by the C4 counterexample update. -/
def urgentKeptDoc : DbTaskRecord :=
  { _id := wid, title := "Plan", description := some "", status := some "todo",
    completed := some false, priority := some "High", createdAt := 5, updatedAt := 6 }

/-- **C4** counterexample: on update, a supplied invalid priority "urgent" is
not coerced to "Medium" — the existing stored priority "High" is kept, so the
claim's coercion rule fails for updates. -/
theorem updateTask_invalid_priority_keeps_existing_cex :
    updateTask wid ⟨none, none, none, none, some "urgent"⟩ 6 [todoDoc] = .ok [urgentKeptDoc] ∧
    urgentKeptDoc.priority = some "High" ∧ ¬ urgentKeptDoc.priority = some "Medium" :=
  ⟨by decide, by decide, by decide⟩

/-- **C4** (amended). On create, a supplied priority outside {High, Medium,
Low} is coerced to "Medium" before storage (both in the returned task and the
stored document); on update such a supplied priority is ignored and the
existing document's priority (or "Medium" when the document has none) is
kept instead. -/
theorem priority_coercion_amended :
    (∀ (input : InsertInput) (now : Int) (newId : String) (store : List DbTaskRecord)
        (task : TaskRecord) (store' : List DbTaskRecord),
      ¬ priorityIncludes (input.priority.getD "") →
      insertTask input now newId store = .ok (task, store') →
      task.priority = "Medium" ∧
        ∃ doc, store' = store ++ [doc] ∧ doc.priority = some "Medium") ∧
    (∀ (id : String) (updates : UpdateInput) (now : Int) (store : List DbTaskRecord)
        (existing : DbTaskRecord) (p : String),
      isValidObjectId id = true →
      store.find? (fun d => d._id == id) = some existing →
      updates.priority = some p → ¬ priorityIncludes p →
      ∃ store', updateTask id updates now store = .ok store' ∧
        ∀ d ∈ store', d._id = id →
          d.priority = some (existing.priority.getD "Medium")) := by
  constructor
  · intro input now newId store task store' hnp hok
    by_cases h : (input.title.map trimString).getD "" = ""
    · simp [insertTask, h] at hok
    · simp only [insertTask] at hok
      rw [if_neg h] at hok
      injection hok with hpair
      obtain ⟨htask, hstore⟩ := Prod.mk.injEq .. ▸ hpair
      refine ⟨?_, ?_⟩
      · rw [← htask]
        simp [normalizeTask, hnp]
      · refine ⟨_, hstore.symm, ?_⟩
        simp [hnp]
  · intro id updates now store existing p hid hfind hpu hnp
    refine ⟨_, updateTask_ok id updates now store existing hid hfind, ?_⟩
    intro d hd hdid
    have hrepl := mem_replaced store id _ d hd hdid
    subst hrepl
    have hcond : ¬(p ≠ "" ∧ priorityIncludes p) := fun hc => hnp hc.2
    simp [applyUpdate, hpu, hcond]

/-- The document and task created by the C4 amended-claim witness. -/
def urgDoc : DbTaskRecord :=
  { _id := wid, title := "Call", description := some "", status := some "todo",
    completed := some false, priority := some "Medium", createdAt := 2, updatedAt := 2 }

/-- The task returned by the C4 amended-claim witness insertion. -/
def urgTask : TaskRecord :=
  { id := wid, title := "Call", description := "", status := "todo",
    completed := false, priority := "Medium", createdAt := 2, updatedAt := 2 }

/-- Evaluation witness for the amended C4: "urgent" is coerced to "Medium" on
create and ignored in favor of the existing priority on update. -/
theorem priority_coercion_amended_witness :
    (urgTask.priority = "Medium" ∧
      ∃ doc, [urgDoc] = ([] : List DbTaskRecord) ++ [doc] ∧ doc.priority = some "Medium") ∧
    (∃ store', updateTask wid ⟨none, none, none, none, some "urgent"⟩ 7 [todoDoc] = .ok store' ∧
      ∀ d ∈ store', d._id = wid → d.priority = some (todoDoc.priority.getD "Medium")) :=
  ⟨priority_coercion_amended.1 ⟨some "Call", none, none, none, some "urgent"⟩ 2 wid []
      urgTask [urgDoc] (by decide) (by decide),
   priority_coercion_amended.2 wid ⟨none, none, none, none, some "urgent"⟩ 7 [todoDoc]
      todoDoc "urgent" (by decide) (by decide) (by decide) (by decide)⟩

/-- Outcomes of the `PATCH` handler in `route.ts`. -/
inductive PatchOutcome where
  /-- 400 — body has no usable string id. -/
  | badRequest
  /-- 200 `{ updated: true }`, carrying the mutated store. -/
  | updated (store : List DbTaskRecord)
  /-- 500 — `updateTask` threw. -/
  | serverError (e : TaskError)
deriving DecidableEq, Repr

/-- `PATCH` from `route.ts`: rejects a missing/empty id with 400, passes the
whole body to `updateTask`, and maps any thrown error to a 500 response.
No title validation of any kind is performed here. (Body JSON parsing is
outside the model.) -/
def PATCH (id : Option String) (updates : UpdateInput) (now : Int)
    (store : List DbTaskRecord) : PatchOutcome :=
  match id with
  | none => .badRequest
  | some i =>
    if i = "" then .badRequest
    else
      match updateTask i updates now store with
      | .error e => .serverError e
      | .ok store' => .updated store'

/-- The document stored by the C8 failing input. -/
def emptiedDoc : DbTaskRecord :=
  { _id := wid, title := "", description := some "", status := some "todo",
    completed := some false, priority := some "High", createdAt := 5, updatedAt := 6 }

/-- **C8** (code bug): a PATCH supplying a whitespace-only title is accepted
end to end — neither the API surface nor the store rejects it — and the
stored task's title becomes the empty string, contradicting the data-model
invariant that the title is non-empty (which `insertTask` does enforce). -/
theorem updateTask_stores_empty_title :
    PATCH (some wid) ⟨some "   ", none, none, none, none⟩ 6 [todoDoc] =
      .updated [emptiedDoc] ∧
    emptiedDoc.title = "" :=
  ⟨by decide, by decide⟩

end TaskManager
